import Mathlib

/-
Verification development for the vkbase model-group aggregation and batching
engine (src/ModelGroup.hpp, with shared declarations from src/VulkanModel.hpp).

Modelling conventions:
- float scalars are modelled as rationals (glm/assimp floats appear only in
  copies, min/max folds and a fixed shininess-to-roughness mapping, all of
  which are exact arithmetic here);
- machine counters (uint32_t) are modelled as Nat: every counter only grows
  by vector sizes, so no wrap-around behaviour is part of any claim;
- the assimp importer result (aiScene pointer plus GetErrorString) is
  modelled as an Except value: a null scene becomes Except.error carrying
  the diagnostic string;
- reads that the C++ performs out of bounds of a std::vector are modelled
  as Option failure (none) of the enclosing operation;
- GPU work (staging copies, image builds, persistently mapped buffers) is
  represented by the data handed to the device layer: byte counts for the
  material buffer, the emitted vkCmdDrawIndexed argument records for the
  command buffer, and flags recording which build steps a call performed.
-/

namespace VkModelGroup

/-- Rational 3-component vector standing for glm::vec3 / aiVector3D. -/
structure Vec3 where
  x : ℚ
  y : ℚ
  z : ℚ
deriving DecidableEq

instance : Inhabited Vec3 := ⟨⟨0, 0, 0⟩⟩

def vec3Zero : Vec3 := ⟨0, 0, 0⟩

instance : Sub Vec3 := ⟨fun a b => ⟨a.x - b.x, a.y - b.y, a.z - b.z⟩⟩

/-- FLT_MAX, the exact value of the largest finite 32-bit float; the
Model::Dimension min/max fields start at (FLT_MAX, FLT_MAX, FLT_MAX) and
(-FLT_MAX, -FLT_MAX, -FLT_MAX) respectively (ModelGroup.hpp lines 73-74). -/
def FLT_MAX : ℚ := 340282346638528859811704183484516925440

/-- Vertex layout component enum (VulkanModel.hpp, enum Component). -/
inductive VertexComponent where
  | position
  | normal
  | color
  | uv
  | tangent
  | bitangent
  | dummyFloat
  | dummyVec4
deriving DecidableEq

/-- Byte contribution of one component in VertexLayout::stride
(VulkanModel.hpp lines 79-93): UV is 2 floats, dummy float 1, dummy vec4
4, every other component 3 floats, each float being sizeof(float) = 4. -/
def componentBytes : VertexComponent → Nat
  | .uv => 2 * 4
  | .dummyFloat => 4
  | .dummyVec4 => 4 * 4
  | _ => 3 * 4

/-- VertexLayout::stride (VulkanModel.hpp lines 74-96): byte stride of one
interleaved vertex, accumulated over the components in order. -/
def stride (components : List VertexComponent) : Nat :=
  components.foldl (fun res c => res + componentBytes c) 0

/-- Default vertex layout of ModelGroup (ModelGroup.hpp lines 112-116):
position, normal, UV. -/
def defaultLayout : List VertexComponent := [.position, .normal, .uv]

/-- Packed material record (ModelGroup::Material, lines 40-53). The w
components of the four glm::vec4 colors are never written by the code
(uninitialized padding), so the colors are modelled with 3 components. -/
structure Material where
  Ka : Vec3
  Kd : Vec3
  Ks : Vec3
  Ke : Vec3
  Ma : Nat
  Md : Nat
  Me : Nat
  Ns : ℚ
  Ni : ℚ
  d : ℚ
  Nm : ℚ
  Nr : ℚ
deriving DecidableEq

instance : Inhabited Material :=
  ⟨⟨vec3Zero, vec3Zero, vec3Zero, vec3Zero, 0, 0, 0, 0, 3/2, 1, 1/200, 1⟩⟩

/-- sizeof(vks::Material) (VulkanModel.hpp lines 36-49): four vec4 colors
(64 bytes), three uint32 map indices (12 bytes), five floats Ns, Ni, d,
pad1, pad2 (20 bytes) = 96 bytes; ModelGroup::Material has the same size. -/
def materialStructBytes : Nat := 96

/-- ModelGroup::ModelPart (lines 54-60): offsets into the shared buffers. -/
structure ModelPart where
  vertexBase : Nat
  vertexCount : Nat
  indexBase : Nat
  indexCount : Nat
  materialIdx : Nat
deriving DecidableEq

instance : Inhabited ModelPart := ⟨⟨0, 0, 0, 0, 0⟩⟩

/-- ModelGroup::DrawCommand (lines 61-64): one instance entry. -/
structure DrawCommand where
  modelIndex : Nat
  partIndex : Nat
deriving DecidableEq

instance : Inhabited DrawCommand := ⟨⟨0, 0⟩⟩

/-- ModelGroup::InstanceData (lines 65-68); the 4x4 model matrix is kept as
a list of rationals (its content plays no role in any claim). -/
structure InstanceData where
  materialIndex : Nat
  modelMat : List ℚ
deriving DecidableEq

/-- Model::Dimension (lines 71-76). The C++ size field is uninitialized
until the first mesh is processed; it is modelled as starting at zero. -/
structure Dimension where
  min : Vec3
  max : Vec3
  size : Vec3
deriving DecidableEq

def initDim : Dimension :=
  { min := ⟨FLT_MAX, FLT_MAX, FLT_MAX⟩
  , max := ⟨-FLT_MAX, -FLT_MAX, -FLT_MAX⟩
  , size := vec3Zero }

/-- ModelGroup::Model (lines 69-77): parts plus bounding box. -/
structure Model where
  parts : List ModelPart
  dim : Dimension
deriving DecidableEq

instance : Inhabited Model := ⟨⟨[], initDim⟩⟩

/-- One vertex of an imported aiMesh: position, normal and the optional
attribute slots (texture coordinate, tangent, bitangent). -/
structure MeshVertex where
  pos : Vec3
  normal : Vec3
  uv : Vec3
  tangent : Vec3
  bitangent : Vec3
deriving DecidableEq

/-- One imported aiMesh. hasTexCoords / hasTangents model
HasTextureCoords(0) and HasTangentsAndBitangents(): when false the code
substitutes the zero vector for the corresponding attribute. Faces are the
per-face index lists (aiFace::mIndices, of length aiFace::mNumIndices). -/
structure Mesh where
  verts : List MeshVertex
  hasTexCoords : Bool
  hasTangents : Bool
  materialIndex : Nat
  faces : List (List Nat)
deriving DecidableEq

/-- One imported aiMaterial, reduced to the properties the code queries.
A none color or shininess models an absent assimp key: aiMaterial::Get
leaves the output variable at its caller-initialized default in that case.
An empty diffuseTexPath models GetTexture leaving the aiString empty. -/
structure AiMaterial where
  ambient : Option Vec3
  diffuse : Option Vec3
  specular : Option Vec3
  emissive : Option Vec3
  shininess : Option ℚ
  diffuseTexPath : String
deriving DecidableEq

instance : Inhabited AiMaterial := ⟨⟨none, none, none, none, none, ""⟩⟩

/-- A successfully parsed aiScene: meshes and materials. -/
structure Scene where
  meshes : List Mesh
  materials : List AiMaterial
deriving DecidableEq

/-- The mutable state of one ModelGroup object (fields of the class at
lines 79-135 that the modelled operations read or write). -/
structure GroupState where
  layout : List VertexComponent
  indexCount : Nat
  vertexCount : Nat
  vertexBuffer : List ℚ
  indexBuffer : List Nat
  aiMaterials : List AiMaterial
  models : List Model
  materials : List Material
  instances : List DrawCommand
  instanceDatas : List InstanceData
deriving DecidableEq

/-- A freshly constructed ModelGroup: all sequences empty, counters zero,
the default vertex layout installed. -/
def initialGroup : GroupState :=
  { layout := defaultLayout
  , indexCount := 0
  , vertexCount := 0
  , vertexBuffer := []
  , indexBuffer := []
  , aiMaterials := []
  , models := []
  , materials := []
  , instances := []
  , instanceDatas := [] }

/-- Floats pushed for one layout component of one vertex (the switch at
ModelGroup.hpp lines 434-477): position and normal have their Y component
negated, UV pushes two floats, color pushes the diffuse color of the
material of the mesh, dummies push zeros. -/
def componentFloats (pColor pos normal uv tangent bitangent : Vec3) :
    VertexComponent → List ℚ
  | .position => [pos.x, -pos.y, pos.z]
  | .normal => [normal.x, -normal.y, normal.z]
  | .uv => [uv.x, uv.y]
  | .color => [pColor.x, pColor.y, pColor.z]
  | .tangent => [tangent.x, tangent.y, tangent.z]
  | .bitangent => [bitangent.x, bitangent.y, bitangent.z]
  | .dummyFloat => [0]
  | .dummyVec4 => [0, 0, 0, 0]

/-- Interleaved floats of one whole vertex in layout order (the inner
component loop, lines 434-477), substituting the zero vector for UV,
tangent and bitangent when the mesh lacks them (lines 430-432). -/
def emitVertex (layout : List VertexComponent) (pColor : Vec3) (mesh : Mesh)
    (v : MeshVertex) : List ℚ :=
  layout.flatMap
    (componentFloats pColor v.pos v.normal
      (if mesh.hasTexCoords then v.uv else vec3Zero)
      (if mesh.hasTangents then v.tangent else vec3Zero)
      (if mesh.hasTangents then v.bitangent else vec3Zero))

/-- Bounding-box fold of one raw vertex position (lines 479-485): fmax and
fmin of the unmodified position components against the running extrema.
Note the position is folded before the Y flip of the emitted data. -/
def foldDim (d : Dimension) (p : Vec3) : Dimension :=
  { d with
      max := ⟨max p.x d.max.x, max p.y d.max.y, max p.z d.max.z⟩
    , min := ⟨min p.x d.min.x, min p.y d.min.y, min p.z d.min.z⟩ }

/-- The per-mesh vertex loop (lines 426-486): appends the interleaved
floats of every vertex to the shared vertex buffer and folds every raw
position into the running bounding box. -/
def processVertices (layout : List VertexComponent) (pColor : Vec3)
    (mesh : Mesh) : List MeshVertex → List ℚ → Dimension → List ℚ × Dimension
  | [], vbuf, dim => (vbuf, dim)
  | v :: rest, vbuf, dim =>
      processVertices layout pColor mesh rest
        (vbuf ++ emitVertex layout pColor mesh v) (foldDim dim v.pos)

/-- The per-mesh face loop (lines 492-502): a face with exactly 3 indices
has those indices appended to the shared index buffer unmodified (the
push_back of mIndices[0], mIndices[1], mIndices[2] is exactly the whole
length-3 list) and grows the part index count and the global index count
by 3; every other face is skipped without any effect. Returns the new
index buffer, the part index count and the global index count. -/
def processFaces : List (List Nat) → List Nat → Nat → Nat →
    List Nat × Nat × Nat
  | [], ibuf, partIdxCount, icount => (ibuf, partIdxCount, icount)
  | f :: rest, ibuf, partIdxCount, icount =>
      if f.length = 3 then
        processFaces rest (ibuf ++ f) (partIdxCount + 3) (icount + 3)
      else
        processFaces rest ibuf partIdxCount icount

/-- Diffuse color looked up for the vertex color component (line 424):
pScene->mMaterials[paiMesh->mMaterialIndex]->Get(AI_MATKEY_COLOR_DIFFUSE),
with the zero initialized local kept when the key is absent. -/
def meshColor (scene : Scene) (mesh : Mesh) : Vec3 :=
  ((scene.materials.getD mesh.materialIndex default).diffuse).getD vec3Zero

/-- dim.size recomputation after the vertex loop of each mesh (line 488). -/
def sizedDim (d : Dimension) : Dimension :=
  { d with size := d.max - d.min }

/-- One iteration of the mesh loop of addModel (lines 410-503): records the
part bases from the current global counters, advances the vertex counter,
runs the vertex loop and the face loop, recomputes dim.size, and appends
the finished part to the model under construction. -/
def processMesh (scene : Scene) (materialOffset : Nat)
    (acc : GroupState × Model) (mesh : Mesh) : GroupState × Model :=
  let st := acc.1
  let model := acc.2
  let part0 : ModelPart :=
    { vertexBase := st.vertexCount
    , vertexCount := 0
    , indexBase := st.indexCount
    , indexCount := 0
    , materialIdx := mesh.materialIndex + materialOffset }
  let vc1 := st.vertexCount + mesh.verts.length
  let vd := processVertices st.layout (meshColor scene mesh) mesh mesh.verts
              st.vertexBuffer model.dim
  let dim1 := sizedDim vd.2
  let fr := processFaces mesh.faces st.indexBuffer 0 st.indexCount
  let part1 := { part0 with vertexCount := mesh.verts.length
                          , indexCount := fr.2.1 }
  ({ st with vertexCount := vc1
           , vertexBuffer := vd.1
           , indexBuffer := fr.1
           , indexCount := fr.2.2 },
   { parts := model.parts ++ [part1], dim := dim1 })

/-- ModelGroup::addModel (lines 363-513). The importer result replaces the
ReadFile call: error carries GetErrorString. On a null scene the function
prints the diagnostic and returns -1 leaving every field untouched; on
success it records the material copies at the asset material offset, runs
the mesh loop, appends the finished model and returns its index. The
result is (new state, returned int, printed output lines). -/
def addModel (st : GroupState) (filename : String)
    (imported : Except String Scene) : GroupState × Int × List String :=
  match imported with
  | .error err =>
      (st, -1, ["Error parsing " ++ filename ++ ": " ++ err])
  | .ok scene =>
      let modelIndex : Int := st.models.length
      let materialOffset := st.aiMaterials.length
      let st1 := { st with aiMaterials := st.aiMaterials ++ scene.materials }
      let fm := scene.meshes.foldl (processMesh scene materialOffset)
                  (st1, { parts := [], dim := initDim })
      ({ fm.1 with models := fm.1.models ++ [fm.2] }, modelIndex, [])

/-- Runs a sequence of addModel calls, each given as (filename, importer
result), threading the group state. -/
def runAddModels : GroupState → List (String × Except String Scene) →
    GroupState
  | st, [] => st
  | st, (f, r) :: ops => runAddModels (addModel st f r).1 ops

/-- One step of the lookup table scan of prepare (lines 166-178): skip an
empty path, skip a path already in the table, append a new path. -/
def pathStep (dic : List String) (p : String) : List String :=
  if p = "" then dic
  else if p ∈ dic then dic
  else dic ++ [p]

/-- The first loop of prepare (lines 164-178): builds the texture path
lookup table by scanning every material of every asset in order, skipping
empty diffuse paths and paths already present, appending new paths at the
back. -/
def buildMapDic (mats : List AiMaterial) : List String :=
  mats.foldl (fun dic m => pathStep dic m.diffuseTexPath) []

/-- The material packing of the second loop of prepare (lines 182-222):
colors copied from the assimp material (an absent key leaves the zero
initialized local), shininess likewise, then the roughness mapping
Nr = (Ns == 0 ? 0.2 : 10 / Ns), the fixed Nm = 0.9, and Md rewritten to
the lookup table index of the diffuse path when the path is found (an
absent or empty path leaves the struct default Md = 0). The remaining
fields keep their struct defaults (lines 45-52). -/
def packMaterial (mapDic : List String) (m : AiMaterial) : Material :=
  let Ns := m.shininess.getD 0
  { Ka := m.ambient.getD vec3Zero
  , Kd := m.diffuse.getD vec3Zero
  , Ks := m.specular.getD vec3Zero
  , Ke := m.emissive.getD vec3Zero
  , Ma := 0
  , Md := if m.diffuseTexPath ∈ mapDic then mapDic.indexOf m.diffuseTexPath
          else 0
  , Me := 0
  , Ns := Ns
  , Ni := 3/2
  , d := 1
  , Nm := 9/10
  , Nr := if Ns = 0 then 1/5 else 10 / Ns }

/-- Result of ModelGroup::prepare (lines 162-290): the updated state, the
texture path table, and which build steps the call performed. The vertex
and index buffer staging upload (lines 224-280) always runs; when the
lookup table is empty the function returns at line 284 before the texture
array build, buildInstanceBuffer and buildMaterialBuffer. -/
structure PrepareResult where
  state : GroupState
  mapDic : List String
  uploadedVertexIndexBuffers : Bool
  builtTexArray : Bool
  builtInstanceBuffer : Bool
  builtMaterialBuffer : Bool
deriving DecidableEq

def prepare (st : GroupState) : PrepareResult :=
  let mapDic := buildMapDic st.aiMaterials
  let st1 := { st with
    materials := st.materials ++ st.aiMaterials.map (packMaterial mapDic) }
  if mapDic.length = 0 then
    { state := st1
    , mapDic := mapDic
    , uploadedVertexIndexBuffers := true
    , builtTexArray := false
    , builtInstanceBuffer := false
    , builtMaterialBuffer := false }
  else
    { state := st1
    , mapDic := mapDic
    , uploadedVertexIndexBuffers := true
    , builtTexArray := true
    , builtInstanceBuffer := true
    , builtMaterialBuffer := true }

/-- ModelGroup::buildMaterialBuffer and updateMaterialBuffer (lines
318-361): createBuffer allocates sizeof(vks::Material) * 256 bytes of
host-visible memory, then memcpy copies sizeof(vks::Material) *
materials.size() bytes of packed materials into the mapped pointer. No
capacity comparison of any kind appears between the two. The model
returns (allocated byte size, copied byte size). -/
def buildMaterialBuffer (materials : List Material) : Nat × Nat :=
  (materialStructBytes * 256, materialStructBytes * materials.length)

/-- Arguments of one vkCmdDrawIndexed call issued by buildCommandBuffer
(lines 300-302 and 313-315): indexCount, instanceCount, firstIndex,
vertexOffset, firstInstance. -/
structure Draw where
  indexCount : Nat
  instanceCount : Nat
  firstIndex : Nat
  vertexOffset : Nat
  firstInstance : Nat
deriving DecidableEq

/-- Part lookup models[modIdx].parts[partIdx] used by the draw emission;
out-of-range indices are modelled with the zero part (no claim concerns
instances addressing missing parts). -/
def lookupPart (models : List Model) (modIdx partIdx : Nat) : ModelPart :=
  (models.getD modIdx default).parts.getD partIdx default

/-- One emitted vkCmdDrawIndexed record: geometry of the current
(model, part) key plus the accumulated run count and run start offset. -/
def mkDraw (models : List Model) (modIdx partIdx instCount instOffset : Nat) :
    Draw :=
  let part := lookupPart models modIdx partIdx
  { indexCount := part.indexCount
  , instanceCount := instCount
  , firstIndex := part.indexBase
  , vertexOffset := part.vertexBase
  , firstInstance := instOffset }

/-- The loop of buildCommandBuffer (lines 298-315) plus the final flush
(lines 311-315): walks the instance list tracking the current key
(modIdx, partIdx), the accumulated count and the run start offset; on a
key change it emits a draw for the previous run and restarts the run at
the current position i; after the walk it emits the pending run unless
its count is zero. -/
def bccLoop (models : List Model) (modIdx partIdx instCount instOffset i : Nat) :
    List DrawCommand → List Draw
  | [] =>
      if instCount = 0 then []
      else [mkDraw models modIdx partIdx instCount instOffset]
  | inst :: rest =>
      if modIdx ≠ inst.modelIndex ∨ partIdx ≠ inst.partIndex then
        mkDraw models modIdx partIdx instCount instOffset ::
          bccLoop models inst.modelIndex inst.partIndex 1 i (i + 1) rest
      else
        bccLoop models modIdx partIdx (instCount + 1) instOffset (i + 1) rest

/-- ModelGroup::buildCommandBuffer (lines 292-316). The function begins by
reading instances[0] (lines 293-294) with no emptiness check: on an empty
instance list that read is out of bounds of the std::vector, modelled as
none. Otherwise the loop starts from the key of the first instance with
count 0 and offset 0 and the emitted vkCmdDrawIndexed records are
returned in order. -/
def buildCommandBuffer (models : List Model) (instances : List DrawCommand) :
    Option (List Draw) :=
  match instances with
  | [] => none
  | first :: _ =>
      some (bccLoop models first.modelIndex first.partIndex 0 0 0 instances)

/-- The batching key of one instance: its (modelIndex, partIndex) pair. -/
def dcKey (dc : DrawCommand) : Nat × Nat := (dc.modelIndex, dc.partIndex)

/-- Decomposition of an instance list into maximal contiguous runs of
equal key, written independently of the draw loop: the current run is
extended while the key matches and closed when it changes. -/
def chunkRunsAux (k : Nat × Nat) (cur : List DrawCommand) :
    List DrawCommand → List (List DrawCommand)
  | [] => [cur]
  | x :: xs =>
      if dcKey x = k then chunkRunsAux k (cur ++ [x]) xs
      else cur :: chunkRunsAux (dcKey x) [x] xs

def chunkRuns : List DrawCommand → List (List DrawCommand)
  | [] => []
  | x :: xs => chunkRunsAux (dcKey x) [x] xs

/-- Draws the specification demands for a run decomposition (one draw per
run, instanceCount the run length, firstInstance the run start offset,
geometry looked up from the key of the run), starting at a given offset. -/
def drawsOfRuns (models : List Model) (start : Nat) :
    List (List DrawCommand) → List Draw
  | [] => []
  | run :: rest =>
      mkDraw models (run.headD default).modelIndex
        (run.headD default).partIndex run.length start ::
        drawsOfRuns models (start + run.length) rest

/-- Registry the specification describes (first loop of prepare as worded
in the spec): scan the diffuse paths in order, appending each non-empty
path not already present; equivalently keep the first occurrence of every
non-empty path. Written as the standard first-occurrence dedup for
comparison with the buildMapDic fold of the code. -/
def firstSeen : List String → List String
  | [] => []
  | p :: ps =>
      if p = "" then firstSeen ps
      else p :: firstSeen (ps.filter (fun q => ¬ q = p))
termination_by l => l.length
decreasing_by
  all_goals simp_wf
  all_goals exact Nat.lt_succ_of_le (List.length_filter_le _ _)

/-- Sum of part.indexCount over all parts of all models. -/
def sumIndexCounts (models : List Model) : Nat :=
  (models.map (fun m => (m.parts.map (fun p => p.indexCount)).sum)).sum

/-- Sum of part.vertexCount over all parts of all models. -/
def sumVertexCounts (models : List Model) : Nat :=
  (models.map (fun m => (m.parts.map (fun p => p.vertexCount)).sum)).sum

/-- The counter consistency invariant of claim C3: part index counts sum
to the shared index buffer length and to the global index counter, part
vertex counts sum to the global vertex counter, and the shared vertex
buffer holds exactly stride bytes worth of floats per counted vertex. -/
def countersConsistent (st : GroupState) : Prop :=
  sumIndexCounts st.models = st.indexBuffer.length ∧
  st.indexBuffer.length = st.indexCount ∧
  sumVertexCounts st.models = st.vertexCount ∧
  4 * st.vertexBuffer.length = st.vertexCount * stride st.layout

instance (st : GroupState) : Decidable (countersConsistent st) := by
  unfold countersConsistent; infer_instance

/-- Indices appended to the shared index buffer by the face loop for a
face list: the faces with exactly 3 indices, flattened, each face kept
verbatim (no per-mesh re-basing of any kind). -/
def triIndices (faces : List (List Nat)) : List Nat :=
  (faces.filter (fun f => f.length = 3)).flatten

/-- Counter consistency generalized to the middle of the mesh loop of one
addModel call: the parts of the model under construction already count
toward the global counters, the finished models contribute their sums. -/
def meshFoldInv (p : GroupState × Model) : Prop :=
  sumIndexCounts p.1.models + (p.2.parts.map (fun q => q.indexCount)).sum
      = p.1.indexBuffer.length ∧
  p.1.indexBuffer.length = p.1.indexCount ∧
  sumVertexCounts p.1.models + (p.2.parts.map (fun q => q.vertexCount)).sum
      = p.1.vertexCount ∧
  4 * p.1.vertexBuffer.length = p.1.vertexCount * stride p.1.layout

/-- A scene holding one mesh with a single vertex (position p, normal nrm,
texture coordinate uv, no tangent data, no faces) and one material. -/
def singleVertexScene (p nrm uv : Vec3) : Scene :=
  { meshes := [{ verts := [⟨p, nrm, uv, vec3Zero, vec3Zero⟩]
               , hasTexCoords := true
               , hasTangents := false
               , materialIndex := 0
               , faces := [] }]
  , materials := [default] }

/-- The instance sequence of the batching example of the specification:
(M0,P0), (M0,P0), (M1,P1), (M0,P0). -/
def demoInstances : List DrawCommand := [⟨0, 0⟩, ⟨0, 0⟩, ⟨1, 1⟩, ⟨0, 0⟩]

/-- A group state whose only scanned material has no diffuse texture, so
the texture path lookup table built by prepare is empty. -/
def demoNoTexState : GroupState :=
  { initialGroup with aiMaterials := [⟨none, none, none, none, some 20, ""⟩] }

/-- Two assimp materials sharing the same non-empty diffuse path, plus one
with a different path, for the registry claims. -/
def demoMatA : AiMaterial := ⟨none, none, none, none, some 20, "wood.png"⟩
def demoMatB : AiMaterial := ⟨none, none, none, none, none, "stone.png"⟩
def demoMatC : AiMaterial := ⟨none, none, none, none, some 4, "wood.png"⟩
def demoMats : List AiMaterial := [demoMatA, demoMatB, demoMatC]

/-
Theorems. Shared helper lemmas come first, then one theorem per claim
(with its witness or counterexample where required).
-/

/-- The face loop appends exactly the length-3 faces verbatim and grows
the part and group index counters by the number of appended indices. -/
theorem processFaces_spec (faces : List (List Nat)) :
    ∀ (ibuf : List Nat) (pc ic : Nat),
    processFaces faces ibuf pc ic
      = (ibuf ++ triIndices faces, pc + (triIndices faces).length,
         ic + (triIndices faces).length) := by
  induction faces with
  | nil => intro ibuf pc ic; simp [processFaces, triIndices]
  | cons f rest ih =>
      intro ibuf pc ic
      by_cases h : f.length = 3
      · rw [processFaces, if_pos h, ih]
        simp [triIndices, List.filter_cons, h, List.append_assoc]
        all_goals omega
      · rw [processFaces, if_neg h, ih]
        simp [triIndices, List.filter_cons, h]

/-- Each face kept by the tri filter contributes exactly 3 indices. -/
theorem triIndices_length (faces : List (List Nat)) :
    (triIndices faces).length
      = 3 * (faces.filter (fun f => f.length = 3)).length := by
  induction faces with
  | nil => simp [triIndices]
  | cons f rest ih =>
      by_cases h : f.length = 3
      · simp [triIndices, List.filter_cons, h] at ih ⊢; omega
      · simp [triIndices, List.filter_cons, h] at ih ⊢; omega

/-- The vertex loop appends the interleaved floats of every vertex and
folds every raw position into the bounding box. -/
theorem processVertices_spec (L : List VertexComponent) (c : Vec3)
    (m : Mesh) : ∀ (verts : List MeshVertex) (vbuf : List ℚ)
    (dim : Dimension),
    processVertices L c m verts vbuf dim
      = (vbuf ++ verts.flatMap (emitVertex L c m),
         List.foldl foldDim dim (verts.map MeshVertex.pos)) := by
  intro verts
  induction verts with
  | nil => intro vbuf dim; simp [processVertices]
  | cons v rest ih =>
      intro vbuf dim
      simp [processVertices, ih, List.append_assoc]

theorem stride_shift (L : List VertexComponent) :
    ∀ r : Nat, L.foldl (fun res c => res + componentBytes c) r
      = r + stride L := by
  induction L with
  | nil => intro r; simp [stride]
  | cons c L ih =>
      intro r
      have h1 : (c :: L).foldl (fun res k => res + componentBytes k) r
          = L.foldl (fun res k => res + componentBytes k)
              (r + componentBytes c) := rfl
      have h2 : stride (c :: L)
          = L.foldl (fun res k => res + componentBytes k)
              (0 + componentBytes c) := rfl
      rw [h1, ih, h2, ih]
      omega

theorem stride_cons (c : VertexComponent) (L : List VertexComponent) :
    stride (c :: L) = componentBytes c + stride L := by
  have h : stride (c :: L)
      = L.foldl (fun res k => res + componentBytes k)
          (0 + componentBytes c) := rfl
  rw [h, stride_shift]
  omega

/-- The floats pushed for one component occupy exactly its stride bytes. -/
theorem componentFloats_length (pc p n u t b : Vec3) (c : VertexComponent) :
    4 * (componentFloats pc p n u t b c).length = componentBytes c := by
  cases c <;> rfl

/-- One interleaved vertex occupies exactly stride bytes. -/
theorem emitVertex_length (L : List VertexComponent) (c : Vec3) (m : Mesh)
    (v : MeshVertex) : 4 * (emitVertex L c m v).length = stride L := by
  unfold emitVertex
  induction L with
  | nil => rfl
  | cons comp L ih =>
      rw [List.flatMap_cons, List.length_append, Nat.mul_add, ih,
        componentFloats_length, stride_cons]

/-- A run of vertices occupies exactly stride bytes per vertex. -/
theorem emitRun_length (L : List VertexComponent) (c : Vec3) (m : Mesh) :
    ∀ verts : List MeshVertex,
    4 * (verts.flatMap (emitVertex L c m)).length
      = verts.length * stride L := by
  intro verts
  induction verts with
  | nil => simp
  | cons v rest ih =>
      rw [List.flatMap_cons, List.length_append, Nat.mul_add, ih,
        emitVertex_length, List.length_cons, Nat.succ_mul]
      omega

/-- Closed form of one iteration of the mesh loop of addModel. -/
theorem processMesh_eq (scene : Scene) (off : Nat) (st : GroupState)
    (model : Model) (mesh : Mesh) :
    processMesh scene off (st, model) mesh
      = ({ st with
            vertexCount := st.vertexCount + mesh.verts.length
          , vertexBuffer := st.vertexBuffer
              ++ mesh.verts.flatMap
                  (emitVertex st.layout (meshColor scene mesh) mesh)
          , indexBuffer := st.indexBuffer ++ triIndices mesh.faces
          , indexCount := st.indexCount + (triIndices mesh.faces).length },
         { parts := model.parts ++
             [{ vertexBase := st.vertexCount
              , vertexCount := mesh.verts.length
              , indexBase := st.indexCount
              , indexCount := (triIndices mesh.faces).length
              , materialIdx := mesh.materialIndex + off }]
         , dim := sizedDim (List.foldl foldDim model.dim
             (mesh.verts.map MeshVertex.pos)) }) := by
  unfold processMesh
  dsimp only
  rw [processVertices_spec, processFaces_spec]
  simp

/-- Claim C2 (amended): on an empty instance list the draw loop of
buildCommandBuffer issues zero draw calls and emits no default or
zero-sized draw, and this holds for every pair of (model, part) values
the initial unguarded instances[0] read may yield (g1, g2 below stand
for those read values): the loop body never runs and the final
instCount == 0 guard (ModelGroup.hpp lines 311-312) returns before any
vkCmdDrawIndexed. Only the claim conjunct that no out-of-bounds access
of the instance sequence occurs fails, see the counterexample. -/
theorem bccLoop_empty_zero_draws (models : List Model) (g1 g2 : Nat) :
    bccLoop models g1 g2 0 0 0 [] = [] := rfl

/-- Counterexample for claim C2 as stated: the claim asserts that on the
empty instance list no out-of-bounds access of the instance sequence
occurs, but buildCommandBuffer reads instances[0] before its loop
(ModelGroup.hpp lines 293-294), an out-of-bounds access of the empty
std::vector, modelled as the none result of the call. -/
theorem buildCommandBuffer_empty_cex :
    buildCommandBuffer ([] : List Model) ([] : List DrawCommand)
      = none := rfl

/-- Claim C4: importer failure leaves the whole group state untouched,
returns -1 (negative, hence distinct from every successful model index,
which is the nonnegative prior length of the model sequence), and prints
the diagnostic of the importer. -/
theorem addModel_importFailure_atomic (st : GroupState)
    (filename err : String) :
    (addModel st filename (Except.error err)).1 = st ∧
    (addModel st filename (Except.error err)).2.1 = -1 ∧
    (addModel st filename (Except.error err)).2.1 < 0 ∧
    (addModel st filename (Except.error err)).2.2
      = ["Error parsing " ++ filename ++ ": " ++ err] ∧
    (∀ scene : Scene,
      (addModel st filename (Except.ok scene)).2.1
        = (st.models.length : Int)) := by
  refine ⟨rfl, rfl, ?_, rfl, ?_⟩
  · show (-1 : Int) < 0
    decide
  · intro scene
    rfl

/-- Claim C7: with 257 packed materials the material buffer build copies
materialStructBytes * 257 bytes into the materialStructBytes * 256 byte
mapped allocation (ModelGroup.hpp lines 318-327 and 359-361): the copy
exceeds the fixed 256-entry table and no capacity error exists in the
code to be surfaced. -/
theorem buildMaterialBuffer_overflow_at_257 :
    (buildMaterialBuffer (List.replicate 257 (default : Material))).1
      = materialStructBytes * 256 ∧
    (buildMaterialBuffer (List.replicate 257 (default : Material))).2
      = materialStructBytes * 257 ∧
    (buildMaterialBuffer (List.replicate 257 (default : Material))).1
      < (buildMaterialBuffer (List.replicate 257 (default : Material))).2 := by
  have hlen : (List.replicate 257 (default : Material)).length = 257 :=
    List.length_replicate 257 _
  have h2 : (buildMaterialBuffer (List.replicate 257 (default : Material))).2
      = materialStructBytes * 257 := by
    show materialStructBytes * (List.replicate 257 (default : Material)).length
      = materialStructBytes * 257
    rw [hlen]
  refine ⟨rfl, h2, ?_⟩
  have h1 : (buildMaterialBuffer (List.replicate 257 (default : Material))).1
      = materialStructBytes * 256 := rfl
  rw [h1, h2]
  norm_num [materialStructBytes]

theorem headD_mem {α : Type} [Inhabited α] (l : List α) (h : l ≠ []) :
    l.headD default ∈ l := by
  cases l with
  | nil => exact absurd rfl h
  | cons a t => simp

/-- The runs of chunkRunsAux cover the pending run and the rest exactly. -/
theorem chunkRunsAux_flatten :
    ∀ (rest : List DrawCommand) (k : Nat × Nat) (cur : List DrawCommand),
    (chunkRunsAux k cur rest).flatten = cur ++ rest := by
  intro rest
  induction rest with
  | nil => intro k cur; simp [chunkRunsAux]
  | cons x xs ih =>
      intro k cur
      by_cases hk : dcKey x = k
      · have h := ih k (cur ++ [x])
        simp only [chunkRunsAux, if_pos hk, h, List.append_assoc,
          List.singleton_append]
      · have h := ih (dcKey x) [x]
        simp [chunkRunsAux, if_neg hk, h]

/-- The first run produced by chunkRunsAux extends the pending run. -/
theorem chunkRunsAux_shape :
    ∀ (rest : List DrawCommand) (k : Nat × Nat) (cur : List DrawCommand),
    ∃ t rs, chunkRunsAux k cur rest = (cur ++ t) :: rs := by
  intro rest
  induction rest with
  | nil => intro k cur; exact ⟨[], [], by simp [chunkRunsAux]⟩
  | cons x xs ih =>
      intro k cur
      by_cases hk : dcKey x = k
      · obtain ⟨t, rs, h⟩ := ih k (cur ++ [x])
        refine ⟨[x] ++ t, rs, ?_⟩
        simp only [chunkRunsAux, if_pos hk, h, List.append_assoc,
          List.singleton_append]
      · exact ⟨[], chunkRunsAux (dcKey x) [x] xs, by
          simp [chunkRunsAux, if_neg hk]⟩

/-- Every run produced by chunkRunsAux is nonempty and key-constant. -/
theorem chunkRunsAux_runs :
    ∀ (rest : List DrawCommand) (k : Nat × Nat) (cur : List DrawCommand),
    cur ≠ [] → (∀ y ∈ cur, dcKey y = k) →
    ∀ run ∈ chunkRunsAux k cur rest,
      run ≠ [] ∧ ∀ y ∈ run, dcKey y = dcKey (run.headD default) := by
  intro rest
  induction rest with
  | nil =>
      intro k cur hne hkey run hrun
      have hcur : run = cur := by simpa [chunkRunsAux] using hrun
      rw [hcur]
      exact ⟨hne, fun y hy => by rw [hkey y hy, hkey _ (headD_mem cur hne)]⟩
  | cons x xs ih =>
      intro k cur hne hkey run hrun
      by_cases hk : dcKey x = k
      · refine ih k (cur ++ [x]) (by simp) ?_ run ?_
        · intro y hy
          rcases List.mem_append.mp hy with h | h
          · exact hkey y h
          · have : y = x := by simpa using h
            subst this; exact hk
        · simpa [chunkRunsAux, if_pos hk] using hrun
      · have hrun2 : run = cur ∨ run ∈ chunkRunsAux (dcKey x) [x] xs := by
          simpa [chunkRunsAux, if_neg hk] using hrun
        rcases hrun2 with h | h
        · rw [h]
          exact ⟨hne, fun y hy => by
            rw [hkey y hy, hkey _ (headD_mem cur hne)]⟩
        · exact ih (dcKey x) [x] (by simp) (by simp) run h

/-- Adjacent runs produced by chunkRunsAux carry different keys. -/
theorem chunkRunsAux_chain :
    ∀ (rest : List DrawCommand) (k : Nat × Nat) (cur : List DrawCommand),
    cur ≠ [] → (∀ y ∈ cur, dcKey y = k) →
    List.Chain'
      (fun r1 r2 => dcKey (r1.headD default) ≠ dcKey (r2.headD default))
      (chunkRunsAux k cur rest) := by
  intro rest
  induction rest with
  | nil => intro k cur hne hkey; simp [chunkRunsAux]
  | cons x xs ih =>
      intro k cur hne hkey
      by_cases hk : dcKey x = k
      · have h := ih k (cur ++ [x]) (by simp)
          (by
            intro y hy
            rcases List.mem_append.mp hy with h | h
            · exact hkey y h
            · have : y = x := by simpa using h
              subst this; exact hk)
        simpa [chunkRunsAux, if_pos hk] using h
      · have hS := ih (dcKey x) [x] (by simp) (by simp)
        obtain ⟨t, rs, hshape⟩ := chunkRunsAux_shape xs (dcKey x) [x]
        have hchain : List.Chain'
            (fun r1 r2 => dcKey (r1.headD default) ≠ dcKey (r2.headD default))
            (cur :: chunkRunsAux (dcKey x) [x] xs) := by
          rw [List.chain'_cons']
          refine ⟨?_, hS⟩
          intro b hb
          rw [hshape] at hb
          have hbx : x :: t = b := by simpa using hb
          rw [← hbx]
          have h1 : dcKey (cur.headD default) = k := hkey _ (headD_mem cur hne)
          have h2 : ((x :: t).headD default) = x := rfl
          rw [h1, h2]
          exact fun hc => hk hc.symm
        simpa [chunkRunsAux, if_neg hk] using hchain

theorem chunkRuns_flatten (l : List DrawCommand) :
    (chunkRuns l).flatten = l := by
  cases l with
  | nil => rfl
  | cons x xs => simpa [chunkRuns] using chunkRunsAux_flatten xs (dcKey x) [x]

theorem chunkRuns_runs (l : List DrawCommand) :
    ∀ run ∈ chunkRuns l,
      run ≠ [] ∧ ∀ y ∈ run, dcKey y = dcKey (run.headD default) := by
  cases l with
  | nil => intro run hrun; simp [chunkRuns] at hrun
  | cons x xs =>
      exact chunkRunsAux_runs xs (dcKey x) [x] (by simp) (by simp)

theorem chunkRuns_chain (l : List DrawCommand) :
    List.Chain'
      (fun r1 r2 => dcKey (r1.headD default) ≠ dcKey (r2.headD default))
      (chunkRuns l) := by
  cases l with
  | nil => simp [chunkRuns]
  | cons x xs =>
      exact chunkRunsAux_chain xs (dcKey x) [x] (by simp) (by simp)

/-- The draw loop, entered with a nonempty pending run of key k that
started at offset s, emits exactly the draws of the run decomposition. -/
theorem bccLoop_eq (models : List Model) :
    ∀ (rest : List DrawCommand) (k : Nat × Nat) (cur : List DrawCommand)
    (s : Nat), cur ≠ [] → (∀ y ∈ cur, dcKey y = k) →
    bccLoop models k.1 k.2 cur.length s (s + cur.length) rest
      = drawsOfRuns models s (chunkRunsAux k cur rest) := by
  intro rest
  induction rest with
  | nil =>
      intro k cur s hne hkey
      have hlen : ¬ cur.length = 0 := by
        intro h
        exact hne (List.length_eq_zero.mp h)
      have hh := hkey _ (headD_mem cur hne)
      have h1 : (cur.headD default).modelIndex = k.1 := by rw [← hh]; rfl
      have h2 : (cur.headD default).partIndex = k.2 := by rw [← hh]; rfl
      simp only [bccLoop, if_neg hlen, chunkRunsAux, drawsOfRuns, h1, h2]
  | cons x xs ih =>
      intro k cur s hne hkey
      by_cases hk : dcKey x = k
      · have hcond : ¬(k.1 ≠ x.modelIndex ∨ k.2 ≠ x.partIndex) := by
          rw [← hk]
          simp [dcKey]
        have hstep : bccLoop models k.1 k.2 cur.length s (s + cur.length)
              (x :: xs)
            = bccLoop models k.1 k.2 (cur.length + 1) s
                (s + cur.length + 1) xs := by
          simp only [bccLoop, if_neg hcond]
        have hkey2 : ∀ y ∈ cur ++ [x], dcKey y = k := by
          intro y hy
          rcases List.mem_append.mp hy with h | h
          · exact hkey y h
          · have : y = x := by simpa using h
            subst this; exact hk
        have hrec := ih k (cur ++ [x]) s (by simp) hkey2
        rw [hstep]
        have haux : chunkRunsAux k cur (x :: xs)
            = chunkRunsAux k (cur ++ [x]) xs := by
          simp only [chunkRunsAux, if_pos hk]
        rw [haux]
        simpa [List.length_append, Nat.add_assoc] using hrec
      · have hcond : k.1 ≠ x.modelIndex ∨ k.2 ≠ x.partIndex := by
          by_contra hc
          push_neg at hc
          apply hk
          show (x.modelIndex, x.partIndex) = k
          rw [Prod.ext_iff]
          exact ⟨hc.1.symm, hc.2.symm⟩
        have hstep : bccLoop models k.1 k.2 cur.length s (s + cur.length)
              (x :: xs)
            = mkDraw models k.1 k.2 cur.length s ::
                bccLoop models x.modelIndex x.partIndex 1 (s + cur.length)
                  (s + cur.length + 1) xs := by
          simp only [bccLoop, if_pos hcond]
        have hrec := ih (dcKey x) [x] (s + cur.length) (by simp) (by simp)
        rw [hstep]
        have haux : chunkRunsAux k cur (x :: xs)
            = cur :: chunkRunsAux (dcKey x) [x] xs := by
          simp only [chunkRunsAux, if_neg hk]
        rw [haux]
        have hh := hkey _ (headD_mem cur hne)
        have h1 : (cur.headD default).modelIndex = k.1 := by rw [← hh]; rfl
        have h2 : (cur.headD default).partIndex = k.2 := by rw [← hh]; rfl
        have hrec2 : bccLoop models x.modelIndex x.partIndex 1
              (s + cur.length) (s + cur.length + 1) xs
            = drawsOfRuns models (s + cur.length)
                (chunkRunsAux (dcKey x) [x] xs) := by
          simpa [dcKey] using hrec
        simp only [drawsOfRuns, h1, h2, hrec2]

/-- Claim C1 (amended to nonempty instance sequences; on the empty one the
code reads instances[0] out of bounds, see the counterexample): for every
nonempty instance sequence, buildCommandBuffer emits exactly one indexed
instanced draw per maximal contiguous run of equal (model, part) keys, in
order, with instanceCount the run length and firstInstance the run start
offset; the conjuncts about chunkRuns state that it is the maximal run
decomposition (runs concatenate back to the input, every run is nonempty
and key-constant, adjacent runs differ in key), so equal-key runs that
are not adjacent are never merged. -/
theorem buildCommandBuffer_one_draw_per_run (models : List Model)
    (instances : List DrawCommand) (h : instances ≠ []) :
    buildCommandBuffer models instances
      = some (drawsOfRuns models 0 (chunkRuns instances)) ∧
    (chunkRuns instances).flatten = instances ∧
    (∀ run ∈ chunkRuns instances,
      run ≠ [] ∧ ∀ y ∈ run, dcKey y = dcKey (run.headD default)) ∧
    List.Chain'
      (fun r1 r2 => dcKey (r1.headD default) ≠ dcKey (r2.headD default))
      (chunkRuns instances) := by
  refine ⟨?_, chunkRuns_flatten instances, chunkRuns_runs instances,
    chunkRuns_chain instances⟩
  obtain ⟨x, xs, rfl⟩ := List.exists_cons_of_ne_nil h
  show some (bccLoop models x.modelIndex x.partIndex 0 0 0 (x :: xs)) = _
  congr 1
  have hcond : ¬(x.modelIndex ≠ x.modelIndex ∨ x.partIndex ≠ x.partIndex) := by
    simp
  have hstep : bccLoop models x.modelIndex x.partIndex 0 0 0 (x :: xs)
      = bccLoop models x.modelIndex x.partIndex 1 0 1 xs := by
    simp only [bccLoop, if_neg hcond]
  rw [hstep]
  have hrec := bccLoop_eq models xs (dcKey x) [x] 0 (by simp) (by simp)
  have hruns : chunkRuns (x :: xs) = chunkRunsAux (dcKey x) [x] xs := rfl
  rw [hruns]
  simpa [dcKey] using hrec

/-- Counterexample for claim C1 as universally stated: at the empty
instance sequence the code performs the out-of-bounds instances[0] read
(modelled as none) instead of the zero draws of the run decomposition. -/
theorem buildCommandBuffer_empty_not_runs :
    ¬ (buildCommandBuffer ([] : List Model) ([] : List DrawCommand)
        = some (drawsOfRuns [] 0 (chunkRuns []))) := by
  decide

/-- Witness for claim C1 at the example of the specification: instances
(M0,P0), (M0,P0), (M1,P1), (M0,P0) produce exactly 3 draws with instance
counts [2,1,1] and firstInstance offsets [0,2,3]. -/
theorem buildCommandBuffer_one_draw_per_run_witness :
    demoInstances ≠ [] ∧
    (buildCommandBuffer ([] : List Model) demoInstances).map
        (fun ds => ds.map (fun d => (d.instanceCount, d.firstInstance)))
      = some [(2, 0), (1, 2), (1, 3)] ∧
    (chunkRuns demoInstances).map List.length = [2, 1, 1] := by
  have h := buildCommandBuffer_one_draw_per_run [] demoInstances (by decide)
  refine ⟨by decide, ?_, by decide⟩
  rw [h.1]
  decide

/-- Membership in the first-occurrence registry: exactly the non-empty
paths of the scan. -/
theorem mem_firstSeen (l : List String) :
    ∀ p : String, p ∈ firstSeen l ↔ (¬ p = "" ∧ p ∈ l) := by
  induction l using firstSeen.induct with
  | case1 => intro p; simp [firstSeen]
  | case2 ps ih =>
      intro p
      rw [firstSeen, if_pos rfl, ih p]
      constructor
      · rintro ⟨h1, h2⟩
        exact ⟨h1, List.mem_cons_of_mem _ h2⟩
      · rintro ⟨h1, h2⟩
        rcases List.mem_cons.mp h2 with h2 | h2
        · exact absurd h2 h1
        · exact ⟨h1, h2⟩
  | case3 q ps hq ih =>
      intro p
      rw [firstSeen, if_neg hq]
      simp only [List.mem_cons, ih, List.mem_filter, decide_eq_true_eq]
      constructor
      · rintro (h | ⟨h1, h2, h3⟩)
        · exact ⟨h ▸ hq, Or.inl h⟩
        · exact ⟨h1, Or.inr h2⟩
      · rintro ⟨h1, h2 | h2⟩
        · exact Or.inl h2
        · by_cases hpq : p = q
          · exact Or.inl hpq
          · exact Or.inr ⟨h1, h2, hpq⟩

/-- The first-occurrence registry holds no duplicates. -/
theorem nodup_firstSeen (l : List String) : (firstSeen l).Nodup := by
  induction l using firstSeen.induct with
  | case1 => simp [firstSeen]
  | case2 ps ih => rw [firstSeen, if_pos rfl]; exact ih
  | case3 q ps hq ih =>
      rw [firstSeen, if_neg hq]
      refine List.nodup_cons.mpr ⟨?_, ih⟩
      intro hmem
      have h := (mem_firstSeen _ q).mp hmem
      have h2 := List.mem_filter.mp h.2
      simp at h2

/-- The scan fold of the code started from any table equals that table
followed by the first occurrences of the paths not yet present. -/
theorem pathFold_firstSeen : ∀ (ps : List String) (acc : List String),
    ps.foldl pathStep acc
      = acc ++ firstSeen (ps.filter (fun q => ¬ q ∈ acc)) := by
  intro ps
  induction ps with
  | nil => intro acc; simp [firstSeen]
  | cons p ps ih =>
      intro acc
      rw [List.foldl_cons]
      by_cases hp : p = ""
      · rw [show pathStep acc p = acc from by simp [pathStep, hp]]
        rw [ih]
        congr 1
        by_cases hmem : p ∈ acc
        · rw [List.filter_cons, if_neg (by simp [hmem])]
        · rw [List.filter_cons, if_pos (by simp [hmem])]
          rw [firstSeen, if_pos hp]
      · by_cases hmem : p ∈ acc
        · rw [show pathStep acc p = acc from by simp [pathStep, hp, hmem]]
          rw [ih]
          congr 1
          rw [List.filter_cons, if_neg (by simp [hmem])]
        · rw [show pathStep acc p = acc ++ [p] from by
            simp [pathStep, hp, hmem]]
          rw [ih]
          rw [List.filter_cons, if_pos (by simp [hmem])]
          rw [firstSeen, if_neg hp, List.filter_filter]
          rw [List.append_assoc, List.singleton_append]
          congr 3
          apply List.filter_congr
          intro a _
          by_cases h1 : a = p <;> by_cases h2 : a ∈ acc <;>
            simp [h1, h2, List.mem_append]

/-- The lookup table built by the first loop of prepare is exactly the
first-occurrence registry of the diffuse paths in material scan order. -/
theorem buildMapDic_eq_firstSeen (mats : List AiMaterial) :
    buildMapDic mats
      = firstSeen (mats.map (fun m => m.diffuseTexPath)) := by
  unfold buildMapDic
  rw [← List.foldl_map (fun m => m.diffuseTexPath) pathStep mats []]
  rw [pathFold_firstSeen]
  simp

/-- Claim C6: the registry built by prepare holds no duplicate paths, is
exactly the first-occurrence sequence of the non-empty diffuse paths in
material scan order across all assets, contains a path iff some scanned
material carries it non-empty, and materials sharing one diffuse path are
rewritten to one identical Md index, which for a non-empty path is the
registry index of that path. -/
theorem prepare_registry_dedup (mats : List AiMaterial) :
    (buildMapDic mats).Nodup ∧
    buildMapDic mats = firstSeen (mats.map (fun m => m.diffuseTexPath)) ∧
    (∀ p : String, p ∈ buildMapDic mats
       ↔ (¬ p = "" ∧ p ∈ mats.map (fun m => m.diffuseTexPath))) ∧
    (∀ m1 ∈ mats, ∀ m2 ∈ mats,
       m1.diffuseTexPath = m2.diffuseTexPath →
       (packMaterial (buildMapDic mats) m1).Md
         = (packMaterial (buildMapDic mats) m2).Md) ∧
    (∀ m ∈ mats, ¬ m.diffuseTexPath = "" →
       (packMaterial (buildMapDic mats) m).Md
           = (buildMapDic mats).indexOf m.diffuseTexPath ∧
         (buildMapDic mats).indexOf m.diffuseTexPath
           < (buildMapDic mats).length) := by
  refine ⟨?_, buildMapDic_eq_firstSeen mats, ?_, ?_, ?_⟩
  · rw [buildMapDic_eq_firstSeen]
    exact nodup_firstSeen _
  · intro p
    rw [buildMapDic_eq_firstSeen]
    exact mem_firstSeen _ p
  · intro m1 _ m2 _ hpath
    show (if m1.diffuseTexPath ∈ buildMapDic mats then
            (buildMapDic mats).indexOf m1.diffuseTexPath else 0)
        = (if m2.diffuseTexPath ∈ buildMapDic mats then
            (buildMapDic mats).indexOf m2.diffuseTexPath else 0)
    rw [hpath]
  · intro m hm hne
    have hmem : m.diffuseTexPath ∈ buildMapDic mats := by
      rw [buildMapDic_eq_firstSeen, mem_firstSeen]
      exact ⟨hne, List.mem_map_of_mem _ hm⟩
    refine ⟨?_, List.indexOf_lt_length.mpr hmem⟩
    show (if m.diffuseTexPath ∈ buildMapDic mats then
            (buildMapDic mats).indexOf m.diffuseTexPath else 0)
        = (buildMapDic mats).indexOf m.diffuseTexPath
    rw [if_pos hmem]

/-- Witness for claim C6: two materials of the demo scan share the path
wood.png across the scan and resolve to the same registry index 0; the
registry is the duplicate-free first-seen list [wood.png, stone.png]. -/
theorem prepare_registry_dedup_witness :
    (buildMapDic demoMats).Nodup ∧
    buildMapDic demoMats = ["wood.png", "stone.png"] ∧
    (packMaterial (buildMapDic demoMats) demoMatA).Md
      = (packMaterial (buildMapDic demoMats) demoMatC).Md ∧
    (packMaterial (buildMapDic demoMats) demoMatA).Md = 0 := by
  have h := prepare_registry_dedup demoMats
  refine ⟨h.1, by decide, ?_, by decide⟩
  exact h.2.2.2.1 demoMatA (by decide) demoMatC (by decide) rfl

/-- The successful branch of addModel written out: material copies are
appended first, then the mesh loop runs from the pre-call counters, and
the finished model is appended. -/
theorem addModel_ok_eq (st : GroupState) (f : String) (scene : Scene) :
    (addModel st f (Except.ok scene)).1
      = { (scene.meshes.foldl (processMesh scene st.aiMaterials.length)
            ({ st with aiMaterials := st.aiMaterials ++ scene.materials },
             { parts := [], dim := initDim })).1 with
          models := (scene.meshes.foldl
              (processMesh scene st.aiMaterials.length)
              ({ st with aiMaterials := st.aiMaterials ++ scene.materials },
               { parts := [], dim := initDim })).1.models
            ++ [(scene.meshes.foldl
                  (processMesh scene st.aiMaterials.length)
                  ({ st with
                      aiMaterials := st.aiMaterials ++ scene.materials },
                   { parts := [], dim := initDim })).2] } := rfl

theorem sumIndexCounts_append_single (ms : List Model) (m : Model) :
    sumIndexCounts (ms ++ [m])
      = sumIndexCounts ms + (m.parts.map (fun p => p.indexCount)).sum := by
  simp [sumIndexCounts]

theorem sumVertexCounts_append_single (ms : List Model) (m : Model) :
    sumVertexCounts (ms ++ [m])
      = sumVertexCounts ms + (m.parts.map (fun p => p.vertexCount)).sum := by
  simp [sumVertexCounts]

/-- One mesh iteration preserves the generalized counter invariant. -/
theorem processMesh_inv (scene : Scene) (off : Nat) (st : GroupState)
    (model : Model) (mesh : Mesh) (h : meshFoldInv (st, model)) :
    meshFoldInv (processMesh scene off (st, model) mesh) := by
  obtain ⟨h1, h2, h3, h4⟩ := h
  rw [processMesh_eq]
  dsimp [meshFoldInv] at h1 h2 h3 h4 ⊢
  refine ⟨?_, ?_, ?_, ?_⟩
  · simp only [List.map_append, List.sum_append, List.map_cons, List.map_nil,
      List.sum_cons, List.sum_nil, List.length_append]
    omega
  · simp only [List.length_append]
    omega
  · simp only [List.map_append, List.sum_append, List.map_cons, List.map_nil,
      List.sum_cons, List.sum_nil]
    omega
  · rw [List.length_append, Nat.mul_add, h4, emitRun_length, Nat.add_mul]

/-- The whole mesh loop preserves the generalized counter invariant. -/
theorem foldMeshes_inv (scene : Scene) (off : Nat) :
    ∀ (meshes : List Mesh) (p : GroupState × Model),
    meshFoldInv p →
    meshFoldInv (meshes.foldl (processMesh scene off) p) := by
  intro meshes
  induction meshes with
  | nil => intro p h; exact h
  | cons mesh rest ih =>
      intro p h
      rw [List.foldl_cons]
      obtain ⟨st, model⟩ := p
      exact ih _ (processMesh_inv scene off st model mesh h)

/-- Every addModel call (successful or failed) preserves the counter
consistency invariant of claim C3. -/
theorem addModel_inv (st : GroupState) (f : String)
    (r : Except String Scene) (h : countersConsistent st) :
    countersConsistent (addModel st f r).1 := by
  obtain ⟨h1, h2, h3, h4⟩ := h
  cases r with
  | error err => exact ⟨h1, h2, h3, h4⟩
  | ok scene =>
      have hinv0 : meshFoldInv
          ({ st with aiMaterials := st.aiMaterials ++ scene.materials },
           ({ parts := [], dim := initDim } : Model)) := by
        refine ⟨?_, h2, ?_, h4⟩
        · simpa using h1
        · simpa using h3
      have hfold := foldMeshes_inv scene st.aiMaterials.length scene.meshes
        _ hinv0
      obtain ⟨g1, g2, g3, g4⟩ := hfold
      rw [addModel_ok_eq]
      refine ⟨?_, g2, ?_, g4⟩
      · rw [sumIndexCounts_append_single]
        exact g1
      · rw [sumVertexCounts_append_single]
        exact g3

/-- Claim C3: after any sequence of addModel calls starting from a fresh
group, the sum of part.indexCount over all parts of all models equals the
shared index buffer length and the global index counter, the sum of
part.vertexCount equals the global vertex counter, and the shared vertex
buffer holds exactly stride bytes of interleaved floats per counted
vertex. -/
theorem runAddModels_counters (ops : List (String × Except String Scene)) :
    countersConsistent (runAddModels initialGroup ops) := by
  have hgen : ∀ (l : List (String × Except String Scene)) (st : GroupState),
      countersConsistent st → countersConsistent (runAddModels st l) := by
    intro l
    induction l with
    | nil => intro st h; exact h
    | cons op rest ih =>
        intro st h
        obtain ⟨f, r⟩ := op
        exact ih _ (addModel_inv st f r h)
  exact hgen ops initialGroup ⟨rfl, rfl, rfl, rfl⟩

/-- The mesh loop appends exactly the tri-filtered face indices of every
mesh, in mesh order, to the shared index buffer. -/
theorem foldMeshes_indexBuffer (scene : Scene) (off : Nat) :
    ∀ (meshes : List Mesh) (st : GroupState) (model : Model),
    (meshes.foldl (processMesh scene off) (st, model)).1.indexBuffer
      = st.indexBuffer ++ meshes.flatMap (fun m => triIndices m.faces) := by
  intro meshes
  induction meshes with
  | nil => intro st model; simp
  | cons mesh rest ih =>
      intro st model
      rw [List.foldl_cons, processMesh_eq, ih]
      simp [List.append_assoc]

/-- The mesh loop grows the global index counter by the appended count. -/
theorem foldMeshes_indexCount (scene : Scene) (off : Nat) :
    ∀ (meshes : List Mesh) (st : GroupState) (model : Model),
    (meshes.foldl (processMesh scene off) (st, model)).1.indexCount
      = st.indexCount
        + (meshes.flatMap (fun m => triIndices m.faces)).length := by
  intro meshes
  induction meshes with
  | nil => intro st model; simp
  | cons mesh rest ih =>
      intro st model
      rw [List.foldl_cons, processMesh_eq, ih]
      simp only [List.flatMap_cons, List.length_append]
      omega

/-- The mesh loop records one part per mesh whose index count is the
tri-filtered face index count of that mesh. -/
theorem foldMeshes_partsIdx (scene : Scene) (off : Nat) :
    ∀ (meshes : List Mesh) (st : GroupState) (model : Model),
    (meshes.foldl (processMesh scene off) (st, model)).2.parts.map
        (fun p => p.indexCount)
      = model.parts.map (fun p => p.indexCount)
        ++ meshes.map (fun m => (triIndices m.faces).length) := by
  intro meshes
  induction meshes with
  | nil => intro st model; simp
  | cons mesh rest ih =>
      intro st model
      rw [List.foldl_cons, processMesh_eq, ih]
      simp [List.append_assoc]

/-- The mesh loop leaves the model sequence untouched. -/
theorem foldMeshes_models (scene : Scene) (off : Nat) :
    ∀ (meshes : List Mesh) (st : GroupState) (model : Model),
    (meshes.foldl (processMesh scene off) (st, model)).1.models
      = st.models := by
  intro meshes
  induction meshes with
  | nil => intro st model; simp
  | cons mesh rest ih =>
      intro st model
      rw [List.foldl_cons, processMesh_eq, ih]

/-- Claim C5: a successful addModel appends, for every face with exactly
3 indices, those 3 index values verbatim (global in the sense that no
per-mesh re-basing or offsetting is applied to them) to the shared index
buffer, grows the owning part index count and the asset index counter by
3 per such face, and skips every face with any other index count without
affecting the index buffer or any index count. -/
theorem addModel_faces_spec (st : GroupState) (f : String) (scene : Scene) :
    (addModel st f (Except.ok scene)).1.indexBuffer
      = st.indexBuffer
        ++ scene.meshes.flatMap (fun m => triIndices m.faces) ∧
    (addModel st f (Except.ok scene)).1.indexCount
      = st.indexCount
        + (scene.meshes.flatMap (fun m => triIndices m.faces)).length ∧
    (∃ model : Model,
      (addModel st f (Except.ok scene)).1.models = st.models ++ [model] ∧
      model.parts.map (fun p => p.indexCount)
        = scene.meshes.map (fun m => (triIndices m.faces).length)) ∧
    (∀ m : Mesh, (triIndices m.faces).length
        = 3 * (m.faces.filter (fun fc => fc.length = 3)).length) := by
  rw [addModel_ok_eq]
  refine ⟨?_, ?_, ?_, fun m => triIndices_length m.faces⟩
  · show (scene.meshes.foldl (processMesh scene st.aiMaterials.length)
        ({ st with aiMaterials := st.aiMaterials ++ scene.materials },
         { parts := [], dim := initDim })).1.indexBuffer = _
    rw [foldMeshes_indexBuffer]
  · show (scene.meshes.foldl (processMesh scene st.aiMaterials.length)
        ({ st with aiMaterials := st.aiMaterials ++ scene.materials },
         { parts := [], dim := initDim })).1.indexCount = _
    rw [foldMeshes_indexCount]
  · refine ⟨(scene.meshes.foldl (processMesh scene st.aiMaterials.length)
        ({ st with aiMaterials := st.aiMaterials ++ scene.materials },
         { parts := [], dim := initDim })).2, ?_, ?_⟩
    · show (scene.meshes.foldl (processMesh scene st.aiMaterials.length)
          ({ st with aiMaterials := st.aiMaterials ++ scene.materials },
           { parts := [], dim := initDim })).1.models ++ _ = _
      rw [foldMeshes_models]
    · rw [foldMeshes_partsIdx]
      simp

/-- Claim C8: prepare packs one material per scanned assimp material, and
every packed material satisfies Nm = 0.9 and the fixed roughness mapping
Nr = 0.2 when the effective shininess is 0 (including an absent key) and
Nr = 10 / Ns otherwise, so shininess 20 yields Nr = 0.5. -/
theorem packed_material_roughness (st : GroupState) (dic : List String)
    (m : AiMaterial) :
    ((prepare st).state.materials
        = st.materials
          ++ st.aiMaterials.map (packMaterial (buildMapDic st.aiMaterials))) ∧
    (packMaterial dic m).Nm = 9/10 ∧
    (m.shininess.getD 0 = 0 → (packMaterial dic m).Nr = 1/5) ∧
    (¬ m.shininess.getD 0 = 0 →
      (packMaterial dic m).Nr = 10 / m.shininess.getD 0) ∧
    (m.shininess = some 20 → (packMaterial dic m).Nr = 1/2) := by
  refine ⟨?_, rfl, ?_, ?_, ?_⟩
  · unfold prepare
    by_cases h : (buildMapDic st.aiMaterials).length = 0 <;> simp [h]
  · intro h
    show (if m.shininess.getD 0 = 0 then (1:ℚ)/5
          else 10 / m.shininess.getD 0) = 1/5
    rw [if_pos h]
  · intro h
    show (if m.shininess.getD 0 = 0 then (1:ℚ)/5
          else 10 / m.shininess.getD 0) = 10 / m.shininess.getD 0
    rw [if_neg h]
  · intro h
    show (if m.shininess.getD 0 = 0 then (1:ℚ)/5
          else 10 / m.shininess.getD 0) = 1/2
    rw [h]
    norm_num

/-- Witness for claim C8: shininess 20 packs to roughness 0.5, an absent
shininess key (effective 0) packs to roughness 0.2, Nm is 0.9. -/
theorem packed_material_roughness_witness :
    (packMaterial [] demoMatA).Nr = 1/2 ∧
    (packMaterial [] demoMatB).Nr = 1/5 ∧
    (packMaterial [] demoMatA).Nm = 9/10 := by
  have hA := packed_material_roughness initialGroup [] demoMatA
  have hB := packed_material_roughness initialGroup [] demoMatB
  exact ⟨hA.2.2.2.2 rfl, hB.2.2.1 rfl, hA.2.1⟩

/-- Counterexample for claim C9: on a group whose single scanned material
has no diffuse texture the registry is empty, and prepare then skips not
only the texture array build but also buildInstanceBuffer and
buildMaterialBuffer (the early return at ModelGroup.hpp lines 283-284
precedes lines 286-289), so the material table is never uploaded. -/
theorem prepare_empty_registry_cex :
    buildMapDic demoNoTexState.aiMaterials = [] ∧
    (prepare demoNoTexState).builtInstanceBuffer = false ∧
    (prepare demoNoTexState).builtMaterialBuffer = false := by
  refine ⟨rfl, rfl, rfl⟩

/-- Claim C9 (amended): when the texture path registry is empty after the
scan, prepare still packs the material records into the shared material
list and still uploads the vertex and index buffers, but returns early,
skipping the texture array creation and also skipping the instance
buffer build and the material table build and upload. -/
theorem prepare_empty_registry_skips_buffers (st : GroupState)
    (h : buildMapDic st.aiMaterials = []) :
    (prepare st).builtTexArray = false ∧
    (prepare st).builtInstanceBuffer = false ∧
    (prepare st).builtMaterialBuffer = false ∧
    (prepare st).uploadedVertexIndexBuffers = true ∧
    (prepare st).state.materials
      = st.materials
        ++ st.aiMaterials.map (packMaterial (buildMapDic st.aiMaterials)) := by
  unfold prepare
  simp [h]

/-- Witness for claim C9 at the demo group with one textureless material:
the registry is empty, the texture array is skipped, and the packed
material list is still appended. -/
theorem prepare_empty_registry_skips_buffers_witness :
    buildMapDic demoNoTexState.aiMaterials = [] ∧
    (prepare demoNoTexState).builtTexArray = false ∧
    (prepare demoNoTexState).state.materials
      = demoNoTexState.materials
        ++ demoNoTexState.aiMaterials.map
            (packMaterial (buildMapDic demoNoTexState.aiMaterials)) := by
  have h := prepare_empty_registry_skips_buffers demoNoTexState (by decide)
  exact ⟨by decide, h.1, h.2.2.2.2⟩

/-- Claim C10: for a successful addModel of a scene holding one mesh with
a single vertex at position p (any finite-float coordinates), the model
bounding box records p itself, folded from the raw importer position with
unmodified sign, while the interleaved data written to the shared vertex
buffer holds the Y-negated position (and Y-negated normal); hence for
p.y different from 0 the recorded bounding box bound differs from the Y
value actually stored in the vertex buffer. -/
theorem addModel_boundingBox_preflip (st : GroupState) (f : String)
    (p nrm uv : Vec3)
    (hlay : st.layout = defaultLayout)
    (hx1 : -FLT_MAX ≤ p.x) (hx2 : p.x ≤ FLT_MAX)
    (hy1 : -FLT_MAX ≤ p.y) (hy2 : p.y ≤ FLT_MAX)
    (hz1 : -FLT_MAX ≤ p.z) (hz2 : p.z ≤ FLT_MAX)
    (hy : ¬ p.y = 0) :
    ∃ model : Model,
      (addModel st f (Except.ok (singleVertexScene p nrm uv))).1.models
        = st.models ++ [model] ∧
      model.dim.min = p ∧
      model.dim.max = p ∧
      (addModel st f (Except.ok (singleVertexScene p nrm uv))).1.vertexBuffer
        = st.vertexBuffer
          ++ [p.x, -p.y, p.z, nrm.x, -nrm.y, nrm.z, uv.x, uv.y] ∧
      ¬ model.dim.min.y = -p.y ∧
      (∀ (sc : Scene) (mesh : Mesh), sc.meshes = [mesh] →
        ∃ model1 : Model,
          (addModel st f (Except.ok sc)).1.models = st.models ++ [model1] ∧
          model1.dim = sizedDim (List.foldl foldDim initDim
            (mesh.verts.map MeshVertex.pos))) := by
  have hgen : ∀ (sc : Scene) (mesh : Mesh), sc.meshes = [mesh] →
      ∃ model1 : Model,
        (addModel st f (Except.ok sc)).1.models = st.models ++ [model1] ∧
        model1.dim = sizedDim (List.foldl foldDim initDim
          (mesh.verts.map MeshVertex.pos)) := by
    intro sc mesh hsc
    rw [addModel_ok_eq, hsc, List.foldl_cons, processMesh_eq,
      List.foldl_nil]
    refine ⟨{ parts := [{ vertexBase := st.vertexCount
                        , vertexCount := mesh.verts.length
                        , indexBase := st.indexCount
                        , indexCount := (triIndices mesh.faces).length
                        , materialIdx := mesh.materialIndex
                            + st.aiMaterials.length }]
            , dim := sizedDim (List.foldl foldDim initDim
                (mesh.verts.map MeshVertex.pos)) }, ?_, rfl⟩
    simp
  rw [addModel_ok_eq]
  have hmesh : (singleVertexScene p nrm uv).meshes
      = [{ verts := [⟨p, nrm, uv, vec3Zero, vec3Zero⟩]
         , hasTexCoords := true
         , hasTangents := false
         , materialIndex := 0
         , faces := [] }] := rfl
  rw [hmesh, List.foldl_cons, processMesh_eq, List.foldl_nil]
  refine ⟨{ parts := [{ vertexBase := st.vertexCount
                      , vertexCount := 1
                      , indexBase := st.indexCount
                      , indexCount := 0
                      , materialIdx := st.aiMaterials.length }]
          , dim := sizedDim (foldDim initDim p) }, ?_, ?_, ?_, ?_, ?_, hgen⟩
  · simp [triIndices]
  · show (sizedDim (foldDim initDim p)).min = p
    show (⟨min p.x FLT_MAX, min p.y FLT_MAX, min p.z FLT_MAX⟩ : Vec3) = p
    rw [min_eq_left hx2, min_eq_left hy2, min_eq_left hz2]
  · show (⟨max p.x (-FLT_MAX), max p.y (-FLT_MAX), max p.z (-FLT_MAX)⟩
        : Vec3) = p
    rw [max_eq_left hx1, max_eq_left hy1, max_eq_left hz1]
  · show st.vertexBuffer
        ++ [(⟨p, nrm, uv, vec3Zero, vec3Zero⟩ : MeshVertex)].flatMap
            (emitVertex st.layout _ _) = _
    rw [hlay]
    simp [emitVertex, componentFloats, defaultLayout]
  · show ¬ (⟨min p.x FLT_MAX, min p.y FLT_MAX, min p.z FLT_MAX⟩ : Vec3).y
        = -p.y
    rw [min_eq_left hy2]
    intro hc
    apply hy
    linarith

/-- Witness for claim C10: the single vertex (1,2,3) gives bounding box
min = max = (1,2,3) while the vertex buffer stores (1,-2,3); the recorded
Y bound 2 differs from the stored Y value -2. -/
theorem addModel_boundingBox_preflip_witness :
    ∃ model : Model,
      (addModel initialGroup "asset"
          (Except.ok (singleVertexScene ⟨1, 2, 3⟩ ⟨0, 0, 1⟩
            ⟨5, 7, 0⟩))).1.models
        = initialGroup.models ++ [model] ∧
      model.dim.min = (⟨1, 2, 3⟩ : Vec3) ∧
      model.dim.max = (⟨1, 2, 3⟩ : Vec3) ∧
      (addModel initialGroup "asset"
          (Except.ok (singleVertexScene ⟨1, 2, 3⟩ ⟨0, 0, 1⟩
            ⟨5, 7, 0⟩))).1.vertexBuffer
        = initialGroup.vertexBuffer ++ [1, -2, 3, 0, 0, 1, 5, 7] ∧
      ¬ model.dim.min.y = -2 := by
  have h := addModel_boundingBox_preflip initialGroup "asset"
    ⟨1, 2, 3⟩ ⟨0, 0, 1⟩ ⟨5, 7, 0⟩ rfl
    (show -FLT_MAX ≤ (1:ℚ) by norm_num [FLT_MAX])
    (show (1:ℚ) ≤ FLT_MAX by norm_num [FLT_MAX])
    (show -FLT_MAX ≤ (2:ℚ) by norm_num [FLT_MAX])
    (show (2:ℚ) ≤ FLT_MAX by norm_num [FLT_MAX])
    (show -FLT_MAX ≤ (3:ℚ) by norm_num [FLT_MAX])
    (show (3:ℚ) ≤ FLT_MAX by norm_num [FLT_MAX])
    (show ¬ (2:ℚ) = 0 by norm_num)
  obtain ⟨model, h1, h2, h3, h4, h5, -⟩ := h
  exact ⟨model, h1, h2, h3, by simpa using h4, by simpa using h5⟩

end VkModelGroup
